import Mathlib

/-!
Verification of the rclone config persistence engine.

The definitions below are a shallow embedding of the Go sources:
`fs/config/config.go` (load/decrypt/save orchestration) and the
`fs/config/provider/goconfig` provider (remote-config operations).
Bytes are modelled as `Nat` (values mod 256), buffers as `List Nat`,
and text buffers as `List String` (the lines of the buffer).
-/

set_option autoImplicit false

/-! ### Classification of a config buffer (loadConfigFile, config.go 336-358) -/

/-- Result of scanning a config buffer: load the whole raw buffer as
plaintext, treat the remainder after the sentinel as encrypted, or reject
an unsupported encryption version. -/
inductive LoadMode where
  | plaintext (raw : List String)
  | encrypted (rest : List String)
  | unsupportedVersion
  deriving DecidableEq, Repr

/-- From `loadConfigFile` (config.go 336-358): the line scanning loop.
`orig` is the whole buffer `b`; the loop walks the lines, skipping blank
lines and lines whose trimmed form starts with `;` or `#`.  On EOF the whole
original buffer goes to `provider.Load`; on the exact V0 sentinel the
remaining lines are the encrypted payload; on another `RCLONE_ENCRYPT_V`
prefix loading fails; otherwise the whole original buffer is plaintext. -/
def classifyAux (orig : List String) : List String → LoadMode
  | [] => .plaintext orig
  | line :: rest =>
    let l := line.trim
    if l.length = 0 || l.startsWith ";" || l.startsWith "#" then
      classifyAux orig rest
    else if l = "RCLONE_ENCRYPT_V0:" then
      .encrypted rest
    else if l.startsWith "RCLONE_ENCRYPT_V" then
      .unsupportedVersion
    else
      .plaintext orig

/-- From `loadConfigFile` (config.go 336-358): classify a whole buffer. -/
def loadClassify (lines : List String) : LoadMode :=
  classifyAux lines lines

/-- A line is significant when its trimmed form is non-blank and is not a
`;` or `#` comment (the lines the scanning loop does not skip). -/
def isSignificantLine (line : String) : Bool :=
  let l := line.trim
  !(l.length = 0 || l.startsWith ";" || l.startsWith "#")

/-- Follows the claim's words: drop the skipped lines; the head of the
result is the first significant line of the buffer. -/
def firstSignificantSuffix (lines : List String) : List String :=
  lines.dropWhile (fun l => !isSignificantLine l)

/-- Follows the claim's words: classification by the first significant line
alone.  If it is exactly the V0 sentinel the remainder is encrypted; if it
merely starts with the sentinel prefix the version is unsupported; otherwise
(including a buffer with no significant line) the entire raw buffer is
plaintext. -/
def classifyBySpec (lines : List String) : LoadMode :=
  match firstSignificantSuffix lines with
  | [] => .plaintext lines
  | first :: rest =>
    let l := first.trim
    if l = "RCLONE_ENCRYPT_V0:" then .encrypted rest
    else if l.startsWith "RCLONE_ENCRYPT_V" then .unsupportedVersion
    else .plaintext lines

/-! ### Atomic save state machine (saveConfig, config.go 419-505) -/

/-- Contents a file can hold in the save protocol: the previous config,
the complete new config, or a partially written new config. -/
inductive FileContent where
  | prev
  | complete
  | partialWrite
  deriving DecidableEq, Repr

/-- The three paths `saveConfig` touches: the target `ConfigPath`, the
`ConfigPath + ".old"` backup, and the temp file created next to the target.
`none` means the path does not exist. -/
structure SaveFS where
  target : Option FileContent
  old : Option FileContent
  temp : Option FileContent
  deriving DecidableEq, Repr

/-- Initial state: the previous config sits at the target path. -/
def saveInit : SaveFS := ⟨some .prev, none, none⟩

/-- Writing into the temp file mid-stream (config.go 442-472): only the temp
file holds partial data. -/
def writeTempPartial (s : SaveFS) : SaveFS := { s with temp := some .partialWrite }

/-- Temp file fully written and closed (config.go 474-477); the chmod /
group-copy steps (479-493) do not change any file's content. -/
def writeTempComplete (s : SaveFS) : SaveFS := { s with temp := some .complete }

/-- The rename of the target onto `ConfigPath + ".old"` (config.go 495). -/
def renameTargetToOld (s : SaveFS) : SaveFS := { s with old := s.target, target := none }

/-- The rename of the temp file onto `ConfigPath` (config.go 498): the commit point. -/
def renameTempToTarget (s : SaveFS) : SaveFS := { s with target := s.temp, temp := none }

/-- The removal of the `.old` backup (config.go 501). -/
def removeOldBackup (s : SaveFS) : SaveFS := { s with old := none }

/-- The sequence of file-system states `saveConfig` passes through, in
order.  Index 4 is the state right after the commit rename. -/
def saveStates : List SaveFS :=
  [saveInit,
   writeTempPartial saveInit,
   writeTempComplete (writeTempPartial saveInit),
   renameTargetToOld (writeTempComplete (writeTempPartial saveInit)),
   renameTempToTarget (renameTargetToOld (writeTempComplete (writeTempPartial saveInit))),
   removeOldBackup (renameTempToTarget (renameTargetToOld
     (writeTempComplete (writeTempPartial saveInit))))]

/-- State after the first `i` steps of `saveConfig`. -/
def saveStateAt (i : Fin 6) : SaveFS :=
  saveStates.getD i.val ⟨none, none, none⟩

/-! ### Secretbox primitive (external golang.org/x/crypto/nacl/secretbox) -/

/-- The constant `secretbox.Overhead`: the length of the authentication tag. -/
def secretboxOverhead : Nat := 16

/-- Modelled from the spec: the authentication tag of the external secretbox
primitive ("authenticated encryption under the key and nonce"); 16 bytes
depending on key, nonce and message. -/
def sealTag (key nonce msg : List Nat) : List Nat :=
  (List.range secretboxOverhead).map (fun i => (key.sum + nonce.sum + msg.sum + i) % 256)

/-- Modelled from the spec: the keystream masking of the message body under
key and nonce. -/
def sealMask (key nonce msg : List Nat) : List Nat :=
  msg.enum.map (fun p => (p.2 + key.getD (p.1 % 32) 0 + nonce.getD (p.1 % 24) 0) % 256)

/-- Modelled from the spec: `secretbox.Seal` — the authenticated ciphertext
is the 16-byte tag followed by the masked message, so its length is the
message length plus `secretboxOverhead`. -/
def secretboxSeal (key nonce msg : List Nat) : List Nat :=
  sealTag key nonce msg ++ sealMask key nonce msg

/-- Modelled from the spec: `secretbox.Open` — unmask the body and accept it
only when the authentication tag matches. -/
def secretboxOpen (key nonce c : List Nat) : Option (List Nat) :=
  if c.length < secretboxOverhead then none
  else
    let t := c.take secretboxOverhead
    let body := c.drop secretboxOverhead
    let msg := body.enum.map
      (fun p => (p.2 + 256 - (key.getD (p.1 % 32) 0 + nonce.getD (p.1 % 24) 0) % 256) % 256)
    if sealTag key nonce msg = t then some msg else none

/-! ### Key acquisition and the decrypt loop (loadConfigFile, config.go 360-415) -/

/-- The mutable state the decrypt loop works with: the in-memory `configKey`
(nil when unset), whether the `_RCLONE_CONFIG_KEY_FILE` environment variable
is set, the content of the handoff temp file it points at (`none` once
deleted or never created; the obscure.Reveal round trip is modelled as the
identity so the file directly holds the key), the `fs.Config.AskPassword`
flag, and the stream of keys successive interactive password prompts would
derive.  `getConfigPassword` is not part of the sources; modelled from the
spec: "interactive password prompt, deriving a 32-byte key via a slow
password hash" — each prompt consumes the next key of `promptKeys`, and an
exhausted stream (the caller can provide no further input) is fatal. -/
structure DecState where
  configKey : Option (List Nat)
  envVarSet : Bool
  handoffFile : Option (List Nat)
  askPassword : Bool
  promptKeys : List (List Nat)
  deriving DecidableEq, Repr

/-- Outcome of one pass through the key-acquisition block. -/
inductive KeyStep where
  /-- Continue to the decryption attempt with this key and updated state. -/
  | proceed (st : DecState) (key : List Nat)
  /-- The error `errors.New("unable to decrypt configuration and not allowed to ask
  for password - set RCLONE_CONFIG_PASS to your configuration password")`. -/
  | noPassword
  /-- One of the `log.Fatalf` calls. -/
  | fatal
  deriving DecidableEq, Repr

/-- From `loadConfigFile` (config.go 372-395): the key-acquisition block at
the top of the decrypt loop.  If `_RCLONE_CONFIG_KEY_FILE` is set the
handoff file is read and deleted (a missing or unreadable file is fatal) and
its key replaces `configKey`; otherwise, only when `configKey` is empty, the
code errors out if prompting is not allowed and prompts for a password
otherwise. -/
def keyAcquire (st : DecState) : KeyStep :=
  if st.envVarSet then
    match st.handoffFile with
    | some k => .proceed { st with handoffFile := none, configKey := some k } k
    | none => .fatal
  else if st.configKey.isSome then
    .proceed st (st.configKey.getD [])
  else if st.askPassword then
    match st.promptKeys with
    | k :: rest => .proceed { st with configKey := some k, promptKeys := rest } k
    | [] => .fatal
  else
    .noPassword

/-- Result of decrypting the encrypted payload. -/
inductive DecOutcome where
  | ok (plaintext : List Nat)
  /-- The error `errors.New("Configuration data too short")`. -/
  | errTooShort
  /-- The explicit no-password-available error. -/
  | errNoPassword
  /-- A `log.Fatalf` path. -/
  | fatal
  /-- The retry loop is still running after `fuel` iterations. -/
  | spin
  deriving DecidableEq, Repr

/-- From `loadConfigFile` (config.go 370-413): the decrypt retry loop.
Each iteration acquires a key, splits the box into the 24-byte nonce and the
ciphertext, and attempts `secretbox.Open`; on failure the in-memory key is
discarded and the loop retries.  `fuel` bounds the number of iterations
modelled. -/
def decryptLoop : Nat → List Nat → DecState → DecOutcome
  | 0, _, _ => .spin
  | Nat.succ fuel, box, st =>
    match keyAcquire st with
    | .noPassword => .errNoPassword
    | .fatal => .fatal
    | .proceed st' key =>
      match secretboxOpen key (box.take 24) (box.drop 24) with
      | some out => .ok out
      | none => decryptLoop fuel box { st' with configKey := none }

/-- From `loadConfigFile` (config.go 360-368 then 370-413): the encrypted
path after base64 decoding.  `box` is the decoded blob; a blob shorter than
24 bytes plus the tag length fails before the decrypt loop ever runs. -/
def loadEncrypted (box : List Nat) (st : DecState) (fuel : Nat) : DecOutcome :=
  if box.length < 24 + secretboxOverhead then .errTooShort
  else decryptLoop fuel box st

/-- Follows the amended claim's words: on each decrypt attempt, an
environment-referenced handoff file is consulted first whenever the
environment variable is set (even when an in-memory key is already set),
and its key replaces the in-memory key; the in-memory key is used only when
no handoff file is referenced; the interactive prompt (or the
no-password-available failure when prompting is not permitted) is reached
only when neither of the first two sources yields a key. -/
def keyOrderSpec (st : DecState) : KeyStep :=
  if st.envVarSet then
    match st.handoffFile with
    | some k => .proceed { st with handoffFile := none, configKey := some k } k
    | none => .fatal
  else
    match st.configKey with
    | some k => .proceed st k
    | none =>
      if st.askPassword then
        match st.promptKeys with
        | k :: rest => .proceed { st with configKey := some k, promptKeys := rest } k
        | [] => .fatal
      else .noPassword

/-! ### Base64 and the written container format (saveConfig, config.go 442-472) -/

/-- UTF-8 irrelevant here: all written header text is ASCII, so a string's
bytes are its characters' code points. -/
def strBytes (s : String) : List Nat :=
  s.data.map Char.toNat

/-- The standard base64 alphabet (encoding/base64 StdEncoding). -/
def base64Alphabet : List Nat :=
  strBytes "ABCDEFGHIJKLMNOPQRSTUVWXYZabcdefghijklmnopqrstuvwxyz0123456789+/"

/-- The base64 character for a 6-bit value. -/
def b64char (n : Nat) : Nat :=
  base64Alphabet.getD n 65

/-- The four output bytes for one complete group of three input bytes. -/
def b64Block (a b c : Nat) : List Nat :=
  [b64char (a / 4), b64char (a % 4 * 16 + b / 16), b64char (b % 16 * 4 + c / 64),
   b64char (c % 64)]

/-- One-shot standard base64 encoding with `=` (byte 61) padding. -/
def base64Encode : List Nat → List Nat
  | a :: b :: c :: rest => b64Block a b c ++ base64Encode rest
  | [a] => [b64char (a / 4), b64char (a % 4 * 16), 61, 61]
  | [a, b] => [b64char (a / 4), b64char (a % 4 * 16 + b / 16), b64char (b % 16 * 4), 61]
  | [] => []

/-- Encode every complete group of three buffered bytes, returning the
encoded output and the fewer-than-three leftover bytes. -/
def encodeFull : List Nat → List Nat × List Nat
  | a :: b :: c :: rest => (b64Block a b c ++ (encodeFull rest).1, (encodeFull rest).2)
  | l => ([], l)

/-- The streaming encoder `base64.NewEncoder` returns: accumulated output
plus an internal buffer of fewer than three pending bytes. -/
structure B64Encoder where
  out : List Nat
  buf : List Nat
  deriving DecidableEq, Repr

/-- A fresh streaming encoder. -/
def B64Encoder.init : B64Encoder := ⟨[], []⟩

/-- A write `enc.Write(data)`: encode all complete three-byte groups of the buffered
plus new bytes, keeping the remainder buffered. -/
def B64Encoder.write (e : B64Encoder) (data : List Nat) : B64Encoder :=
  ⟨e.out ++ (encodeFull (e.buf ++ data)).1, (encodeFull (e.buf ++ data)).2⟩

/-- Closing with `enc.Close()`: flush the pending bytes with padding and return the whole
stream written to the underlying file. -/
def B64Encoder.close (e : B64Encoder) : List Nat :=
  e.out ++ base64Encode e.buf

/-- From `saveConfig` (config.go 442-472): the bytes written to the temp
file for a serialized body.  With no key set the `provider.Save` output is
written verbatim; with a key set the code `Fprintln`s the banner comment, an
empty line and the sentinel line, then streams `nonce` and
`secretbox.Seal(body)` through a base64 encoder and closes it.  The nonce is
a parameter standing for the 24 bytes freshly read from `crypto/rand`. -/
def saveConfigContent (body : List Nat) (configKey : Option (List Nat))
    (nonce : List Nat) : List Nat :=
  match configKey with
  | none => body
  | some key =>
    strBytes "# Encrypted rclone configuration File" ++ strBytes "\n"
      ++ strBytes "" ++ strBytes "\n"
      ++ strBytes "RCLONE_ENCRYPT_V0:" ++ strBytes "\n"
      ++ ((B64Encoder.init.write nonce).write (secretboxSeal key nonce body)).close

/-- Follows the claim's words: a banner comment line, a blank line, the
literal sentinel line, then the base64 encoding of the nonce followed by
the authenticated ciphertext of the body. -/
def encryptedContainerSpec (body key nonce : List Nat) : List Nat :=
  strBytes "# Encrypted rclone configuration File\n"
    ++ strBytes "\n"
    ++ strBytes "RCLONE_ENCRYPT_V0:\n"
    ++ base64Encode (nonce ++ secretboxSeal key nonce body)

/-! ### The goconfig provider (fs/config/provider/goconfig) and its backing
library (external github.com/Unknwon/goconfig) -/

/-- Modelled from the spec: the external goconfig library's `ConfigFile` —
"an ordered-insertion collection of zero or more Sections, each identified
by a unique name", each section "a mapping from option-name (string) to
option-value (string)".  Sections are kept in insertion order as an
association list. -/
structure ConfigFile where
  sections : List (String × List (String × String))
  deriving DecidableEq, Repr

/-- Modelled from the spec: `goconfig.GetSectionList` — the section names in
insertion order. -/
def ConfigFile.GetSectionList (cf : ConfigFile) : List String :=
  cf.sections.map (fun s => s.1)

/-- Modelled from the spec: `goconfig.GetSection` — the options of the named
(first matching) section, or an error (`none`) when no such section
exists. -/
def ConfigFile.GetSection (cf : ConfigFile) (name : String) : Option (List (String × String)) :=
  (cf.sections.find? (fun s => s.1 == name)).map (fun s => s.2)

/-- Set one option inside a section's option list: overwrite the existing
option in place, else append it. -/
def setOption (opts : List (String × String)) (key value : String) : List (String × String) :=
  if opts.any (fun p => p.1 == key) then
    opts.map (fun p => if p.1 == key then (p.1, value) else p)
  else
    opts ++ [(key, value)]

/-- Modelled from the spec: `goconfig.SetValue` — write the option into the
named section, creating the section (appended at the end, preserving
insertion order) when it does not exist yet. -/
def ConfigFile.SetValue (cf : ConfigFile) (sec key value : String) : ConfigFile :=
  if cf.sections.any (fun s => s.1 == sec) then
    ⟨cf.sections.map (fun s => if s.1 == sec then (s.1, setOption s.2 key value) else s)⟩
  else
    ⟨cf.sections ++ [(sec, [(key, value)])]⟩

/-- Modelled from the spec: `goconfig.DeleteSection` — remove the named
section. -/
def ConfigFile.DeleteSection (cf : ConfigFile) (name : String) : ConfigFile :=
  ⟨cf.sections.filter (fun s => !(s.1 == name))⟩

/-- From `ListRemotes` (goconfig provider, on a loaded config):
`g.config.GetSectionList()`. -/
def ConfigFile.ListRemotes (cf : ConfigFile) : List String :=
  cf.GetSectionList

/-- From `HasRemote` (goconfig provider): a linear scan of `ListRemotes`
comparing names. -/
def ConfigFile.HasRemote (cf : ConfigFile) (remote : String) : Bool :=
  cf.ListRemotes.any (fun v => v == remote)

/-- From `CreateRemote` (goconfig provider): `SetValue(remote, "", "")`. -/
def ConfigFile.CreateRemote (cf : ConfigFile) (remote : String) : ConfigFile :=
  cf.SetValue remote "" ""

/-- From `DeleteRemote` (goconfig provider): `DeleteSection(name)`. -/
def ConfigFile.DeleteRemote (cf : ConfigFile) (name : String) : ConfigFile :=
  cf.DeleteSection name

/-- Result of an operation that can call `log.Fatalf`, terminating the
process instead of returning. -/
inductive Outcome (α : Type) where
  | ok (a : α)
  | fatal
  deriving DecidableEq, Repr

/-- From `CopyRemote` (goconfig provider): read all options of the source
section (`log.Fatalf` when it does not exist) and `SetValue` each one into
the destination section. -/
def ConfigFile.CopyRemote (cf : ConfigFile) (source destination : String) :
    Outcome ConfigFile :=
  match cf.GetSection source with
  | none => .fatal
  | some data => .ok (data.foldl (fun acc kv => acc.SetValue destination kv.1 kv.2) cf)

/-- From `RenameRemote` (goconfig provider): `CopyRemote(oldName, newName)`
followed by deleting the `oldName` section. -/
def ConfigFile.RenameRemote (cf : ConfigFile) (oldName newName : String) :
    Outcome ConfigFile :=
  match cf.CopyRemote oldName newName with
  | .fatal => .fatal
  | .ok cf2 => .ok (cf2.DeleteSection oldName)

/-- From the goconfig provider's `section` type: a handle records the remote
name (and the config pointer, passed explicitly here); `newSection`, and so
`GetRemote`, always produce a handle, even for a missing remote. -/
structure SectionHandle where
  remote : String
  deriving DecidableEq, Repr

/-- From `GetRemote` (goconfig provider): `newSection(g.config, remote)` —
always succeeds. -/
def ConfigFile.GetRemote (_cf : ConfigFile) (remote : String) : SectionHandle :=
  ⟨remote⟩

/-- From `getRemoteData` (goconfig provider): `GetSection` of the handle's
remote, calling `log.Fatalf("couldnt load section: ...")` when it fails. -/
def SectionHandle.getRemoteData (s : SectionHandle) (cf : ConfigFile) :
    Outcome (List (String × String)) :=
  match cf.GetSection s.remote with
  | none => .fatal
  | some d => .ok d

/-- From `Keys` (goconfig provider): the option names of the section's
data. -/
def SectionHandle.Keys (s : SectionHandle) (cf : ConfigFile) : Outcome (List String) :=
  match s.getRemoteData cf with
  | .fatal => .fatal
  | .ok d => .ok (d.map (fun p => p.1))

/-- From `GetConfig` (goconfig provider): the raw option map of the
section. -/
def SectionHandle.GetConfig (s : SectionHandle) (cf : ConfigFile) :
    Outcome (List (String × String)) :=
  match s.getRemoteData cf with
  | .fatal => .fatal
  | .ok d => .ok d

/-- From `GetString` (goconfig provider): the option's value, or `""` when
the option is absent from the section's data. -/
def SectionHandle.GetString (s : SectionHandle) (cf : ConfigFile) (name : String) :
    Outcome String :=
  match s.getRemoteData cf with
  | .fatal => .fatal
  | .ok d => .ok (((d.find? (fun p => p.1 == name)).map (fun p => p.2)).getD "")

/-- The stored value of option `k` of remote `r`: the remote's options
looked up; `none` when the remote or the option is absent. -/
def ConfigFile.OptionValue (cf : ConfigFile) (r k : String) : Option String :=
  (cf.GetSection r).bind (fun opts => (opts.find? (fun p => p.1 == k)).map (fun p => p.2))

/-! ### Loading with a missing config file (LoadConfig, config.go 189-220) -/

/-- From the goconfig provider (provider.go): the provider holds a possibly
nil pointer to the parsed library config; `NewGoConfigProvider` leaves it
nil and only a successful `Load` fills it in. -/
structure GoConfig where
  config : Option ConfigFile
  deriving DecidableEq, Repr

/-- From `NewGoConfigProvider` (provider.go): a fresh provider whose config
pointer is nil. -/
def NewGoConfigProvider : GoConfig :=
  ⟨none⟩

/-- Result of calling a goconfig method through the provider's possibly nil
config pointer: a method invoked on a nil `*goconfig.ConfigFile`
dereferences a field of the nil receiver, so the Go runtime panics. -/
inductive NilOutcome (α : Type) where
  | ok (a : α)
  | nilPanic
  deriving DecidableEq, Repr

/-- From `ListRemotes` (goconfig provider) as reached through the provider:
`g.config.GetSectionList()`; a nil config pointer panics. -/
def GoConfig.ListRemotes (g : GoConfig) : NilOutcome (List String) :=
  match g.config with
  | none => .nilPanic
  | some cf => .ok cf.GetSectionList

/-- From `HasRemote` (goconfig provider) through the provider: scans the
result of `ListRemotes`. -/
def GoConfig.HasRemote (g : GoConfig) (remote : String) : NilOutcome Bool :=
  match g.ListRemotes with
  | .nilPanic => .nilPanic
  | .ok l => .ok (l.any (fun v => v == remote))

/-- The errors `loadConfigFile` can hand to `LoadConfig`. -/
inductive LoadFileErr where
  | notFound
  | readError
  | unsupportedVersion
  | noPassword
  | tooShort
  deriving DecidableEq, Repr

/-- From `LoadConfig` (config.go 200-210): only `errorConfigFileNotFound` is
tolerated (logged as `not found - using defaults`); every other error from
`loadConfigFile` is `log.Fatalf`. -/
def loadConfigFatal : Option LoadFileErr → Bool
  | some .notFound => false
  | some _ => true
  | none => false

/-- From `loadConfigFile` (config.go 328-334) when no file exists at
`ConfigPath`: `ReadFile` reports not-exist, `errorConfigFileNotFound` is
returned, and the provider is left exactly as `NewFunc` built it —
`provider.Load` is never called, so its config pointer stays nil. -/
def loadConfigFileMissing : Option LoadFileErr × GoConfig :=
  (some .notFound, NewGoConfigProvider)

/-! ### Theorems -/

theorem classifyAux_spec (orig : List String) (ls : List String) :
    classifyAux orig ls =
      match ls.dropWhile (fun l => !isSignificantLine l) with
      | [] => .plaintext orig
      | first :: rest =>
        if first.trim = "RCLONE_ENCRYPT_V0:" then .encrypted rest
        else if first.trim.startsWith "RCLONE_ENCRYPT_V" then .unsupportedVersion
        else .plaintext orig := by
  induction ls with
  | nil => rfl
  | cons line rest ih =>
    cases hc : (line.trim.length = 0 || line.trim.startsWith ";"
        || line.trim.startsWith "#") with
    | true =>
      have hsig : isSignificantLine line = false := by
        simp only [isSignificantLine, hc, Bool.not_true]
      simp [classifyAux, List.dropWhile_cons, hc, hsig, ih]
    | false =>
      have hsig : isSignificantLine line = true := by
        simp only [isSignificantLine, hc, Bool.not_false]
      simp [classifyAux, List.dropWhile_cons, hc, hsig]

/-- C1: for every input buffer, `loadConfigFile`'s scanning loop classifies
it by its first significant line exactly as the spec states: skipping blank
and `;`/`#` comment lines, the exact sentinel `RCLONE_ENCRYPT_V0:` makes the
remainder encrypted, another `RCLONE_ENCRYPT_V` prefix is an unsupported
version, and otherwise the entire raw buffer is passed on as plaintext
unchanged. -/
theorem c1_first_significant_line_classification (lines : List String) :
    loadClassify lines = classifyBySpec lines := by
  rw [loadClassify, classifyAux_spec, classifyBySpec, firstSignificantSuffix]

/-- C2: in every state reachable before the rename of the temp file onto
the target (indices 0-3), the previous config is intact at the target path
or at the `.old` backup; from the commit rename on (indices 4-5) the new
content is fully at the target; and the target path never holds a partially
written file. -/
theorem c2_atomic_save_invariant :
    (∀ i : Fin 6, i.val < 4 →
      (saveStateAt i).target = some .prev ∨ (saveStateAt i).old = some .prev) ∧
    (∀ i : Fin 6, 4 ≤ i.val → (saveStateAt i).target = some .complete) ∧
    (∀ i : Fin 6, (saveStateAt i).target ≠ some .partialWrite) := by
  refine ⟨?_, ?_, ?_⟩ <;> decide

theorem c2_atomic_save_invariant_witness :
    (saveStateAt ⟨3, by decide⟩).target = some .prev ∨
      (saveStateAt ⟨3, by decide⟩).old = some .prev :=
  c2_atomic_save_invariant.1 ⟨3, by decide⟩ (by decide)

/-- C3 counterexample: a state in which an in-memory key `[1]` is already
set and the environment references a handoff file holding key `[2]`.  The
key-acquisition block nevertheless reads (and consumes) the handoff file and
uses its key, contradicting the claim that the handoff file is not read when
an in-memory key is set. -/
theorem c3_key_order_counterexample :
    (⟨some [1], true, some [2], false, []⟩ : DecState).configKey.isSome = true ∧
    keyAcquire ⟨some [1], true, some [2], false, []⟩ =
      .proceed ⟨some [2], true, none, false, []⟩ [2] := by
  decide

/-- C3 (amended): on every decrypt attempt the key sources are consulted in
this order: first the environment-referenced handoff file whenever the
environment variable is set (even when an in-memory key is already set, the
file is read, consumed, and its key overrides the in-memory key); second,
only when no handoff file is referenced, the pre-set in-memory key; third,
only if neither yields a key, the interactive password prompt (or the
no-password failure when prompting is not permitted). -/
theorem c3_key_order_amended (st : DecState) : keyAcquire st = keyOrderSpec st := by
  obtain ⟨ck, ev, hf, ap, pk⟩ := st
  cases ck <;> cases ev <;> cases hf <;> cases ap <;> cases pk <;> rfl

/-- C6: whenever the base64-decoded blob is shorter than the 24-byte nonce
plus the authentication-tag length, the encrypted path fails with the
data-too-short error for every key state and every fuel, so neither key
acquisition nor an `secretbox.Open` attempt ever happens for that blob. -/
theorem c6_too_short (box : List Nat) (st : DecState) (fuel : Nat)
    (h : box.length < 24 + secretboxOverhead) :
    loadEncrypted box st fuel = .errTooShort := by
  simp [loadEncrypted, h]

theorem c6_too_short_witness :
    loadEncrypted [0, 1, 2] ⟨none, true, none, false, []⟩ 7 = .errTooShort :=
  c6_too_short [0, 1, 2] ⟨none, true, none, false, []⟩ 7 (by decide)

/-- C7: when the content is encrypted (the blob passes the length check), no
in-memory key is set, the environment references no handoff file, and
interactive prompting is not permitted, the decrypt loop fails immediately
with the explicit no-password-available error. -/
theorem c7_no_password (box : List Nat) (st : DecState) (fuel : Nat)
    (hlen : 24 + secretboxOverhead ≤ box.length)
    (hkey : st.configKey = none) (henv : st.envVarSet = false)
    (hask : st.askPassword = false) :
    loadEncrypted box st (fuel + 1) = .errNoPassword := by
  have hnot : ¬ box.length < 24 + secretboxOverhead := by omega
  simp [loadEncrypted, hnot, decryptLoop, keyAcquire, henv, hkey, hask]

theorem c7_no_password_witness :
    loadEncrypted (List.replicate 40 0) ⟨none, false, none, false, []⟩ 1 = .errNoPassword :=
  c7_no_password (List.replicate 40 0) ⟨none, false, none, false, []⟩ 0
    (by decide) rfl rfl rfl

theorem base64Encode_encodeFull : ∀ zs : List Nat,
    base64Encode zs = (encodeFull zs).1 ++ base64Encode (encodeFull zs).2
  | [] => by simp [base64Encode, encodeFull]
  | [a] => by simp [base64Encode, encodeFull]
  | [a, b] => by simp [base64Encode, encodeFull]
  | a :: b :: c :: rest => by
    simp [base64Encode, encodeFull, base64Encode_encodeFull rest]

theorem encodeFull_append : ∀ xs ys : List Nat,
    encodeFull (xs ++ ys) =
      ((encodeFull xs).1 ++ (encodeFull ((encodeFull xs).2 ++ ys)).1,
        (encodeFull ((encodeFull xs).2 ++ ys)).2)
  | [], ys => by simp [encodeFull]
  | [a], ys => by simp [encodeFull]
  | [a, b], ys => by simp [encodeFull]
  | a :: b :: c :: rest, ys => by
    simp [encodeFull, encodeFull_append rest ys]

/-- Writing two chunks through the streaming base64 encoder and closing it
produces exactly the one-shot encoding of their concatenation. -/
theorem b64_stream_eq (xs ys : List Nat) :
    ((B64Encoder.init.write xs).write ys).close = base64Encode (xs ++ ys) := by
  simp only [B64Encoder.init, B64Encoder.write, B64Encoder.close, List.nil_append]
  rw [base64Encode_encodeFull (xs ++ ys), encodeFull_append xs ys]

/-- C5: with no key set, `saveConfig` writes the serialized body verbatim;
with a 24-byte nonce and a key set it writes the banner comment line, a
blank line, the literal `RCLONE_ENCRYPT_V0:` sentinel line, and the base64
encoding of the nonce followed by the secretbox-authenticated ciphertext of
the body under that key and nonce. -/
theorem c5_save_format (body key nonce : List Nat) (_h : nonce.length = 24) :
    saveConfigContent body none nonce = body ∧
    saveConfigContent body (some key) nonce = encryptedContainerSpec body key nonce := by
  refine ⟨rfl, ?_⟩
  simp only [saveConfigContent, encryptedContainerSpec]
  rw [b64_stream_eq]
  rfl

theorem c5_save_format_witness :
    saveConfigContent [7] (some (List.replicate 32 1)) (List.replicate 24 2) =
      encryptedContainerSpec [7] (List.replicate 32 1) (List.replicate 24 2) :=
  (c5_save_format [7] (List.replicate 32 1) (List.replicate 24 2) (by decide)).2

/-- C4 (code behavior at the failing input): when the config file does not
exist, `LoadConfig` indeed raises no error to the caller — but the resulting
provider's config pointer is still nil, so `ListRemotes` does not return an
empty list and `HasRemote` is not false: both panic on the nil pointer.
This contradicts the claim (and the spec's intent of proceeding with an
empty RemoteConfig on first run). -/
theorem c4_missing_config_nil_panic :
    loadConfigFatal loadConfigFileMissing.1 = false ∧
    loadConfigFileMissing.2.ListRemotes = .nilPanic ∧
    ∀ r : String, loadConfigFileMissing.2.HasRemote r = .nilPanic :=
  ⟨rfl, rfl, fun _ => rfl⟩

theorem any_map_fst (l : List (String × List (String × String))) (r : String) :
    (l.map (fun s => s.1)).any (fun v => v == r) = l.any (fun s => s.1 == r) := by
  induction l with
  | nil => rfl
  | cons a t ih => simp [ih]

theorem sections_find?_none (l : List (String × List (String × String))) (r : String)
    (h : l.any (fun s => s.1 == r) = false) :
    l.find? (fun s => s.1 == r) = none := by
  induction l with
  | nil => rfl
  | cons a t ih =>
    simp only [List.any_cons, Bool.or_eq_false_iff] at h
    rw [List.find?_cons_of_neg _ (by simp [h.1]), ih h.2]

theorem sections_find?_isSome (l : List (String × List (String × String))) (r : String)
    (h : l.any (fun s => s.1 == r) = true) :
    (l.find? (fun s => s.1 == r)).isSome = true := by
  induction l with
  | nil => simp at h
  | cons a t ih =>
    cases hp : (a.1 == r) with
    | true => simp only [List.find?_cons, hp, Option.isSome_some]
    | false =>
      simp only [List.find?_cons, hp]
      apply ih
      simpa [hp] using h

theorem GetSection_eq_none (cf : ConfigFile) (r : String) (h : cf.HasRemote r = false) :
    cf.GetSection r = none := by
  have h' : cf.sections.any (fun s => s.1 == r) = false := by
    rw [← any_map_fst]; exact h
  unfold ConfigFile.GetSection
  rw [sections_find?_none _ _ h']
  rfl

theorem map_fst_setValue_map (l : List (String × List (String × String))) (sec k v : String) :
    (l.map (fun s => if s.1 == sec then (s.1, setOption s.2 k v) else s)).map (fun s => s.1)
      = l.map (fun s => s.1) := by
  induction l with
  | nil => rfl
  | cons a t ih =>
    have hfst : ((if a.1 == sec then (a.1, setOption a.2 k v) else a) :
        String × List (String × String)).1 = a.1 := by
      cases hp : (a.1 == sec) with
      | true => rfl
      | false => rfl
    simp only [List.map_cons, hfst, ih]

theorem ListRemotes_CreateRemote (cf : ConfigFile) (r : String) (h : cf.HasRemote r = true) :
    (cf.CreateRemote r).ListRemotes = cf.ListRemotes := by
  have h' : cf.sections.any (fun s => s.1 == r) = true := by
    rw [← any_map_fst]; exact h
  unfold ConfigFile.CreateRemote ConfigFile.SetValue ConfigFile.ListRemotes
    ConfigFile.GetSectionList
  rw [if_pos h']
  exact map_fst_setValue_map _ _ _ _

theorem find?_setValue_map (l : List (String × List (String × String))) (sec k v : String) :
    (l.map (fun s => if s.1 == sec then (s.1, setOption s.2 k v) else s)).find?
        (fun s => s.1 == sec)
      = (l.find? (fun s => s.1 == sec)).map (fun s => (s.1, setOption s.2 k v)) := by
  induction l with
  | nil => rfl
  | cons a t ih =>
    cases hp : (a.1 == sec) with
    | true =>
      have hif : (if (a.1 == sec) = true then
          ((a.1, setOption a.2 k v) : String × List (String × String)) else a)
          = (a.1, setOption a.2 k v) := if_pos hp
      simp only [List.map_cons]
      rw [hif]
      simp only [List.find?_cons, hp]
      rfl
    | false =>
      have hif : (if (a.1 == sec) = true then
          ((a.1, setOption a.2 k v) : String × List (String × String)) else a)
          = a := if_neg (by simp [hp])
      simp only [List.map_cons]
      rw [hif]
      simp only [List.find?_cons, hp, ih]

theorem find?_setOption_ne (opts : List (String × String)) (key value k : String)
    (hk : k ≠ key) :
    (setOption opts key value).find? (fun p => p.1 == k)
      = opts.find? (fun p => p.1 == k) := by
  unfold setOption
  cases hg : opts.any (fun p => p.1 == key) with
  | true =>
    rw [if_pos rfl]
    clear hg
    induction opts with
    | nil => rfl
    | cons a t ih =>
      cases hp : (a.1 == key) with
      | true =>
        have ha : a.1 = key := beq_iff_eq.mp hp
        have hak : (a.1 == k) = false :=
          beq_eq_false_iff_ne.mpr (by rw [ha]; exact fun hkk => hk hkk.symm)
        have hif : (if (a.1 == key) = true then ((a.1, value) : String × String) else a)
            = (a.1, value) := if_pos hp
        simp only [List.map_cons]
        rw [hif]
        simp only [List.find?_cons, hak, ih]
      | false =>
        have hif : (if (a.1 == key) = true then ((a.1, value) : String × String) else a)
            = a := if_neg (by simp [hp])
        cases hak : (a.1 == k) with
        | true =>
          simp only [List.map_cons]
          rw [hif]
          simp only [List.find?_cons, hak]
        | false =>
          simp only [List.map_cons]
          rw [hif]
          simp only [List.find?_cons, hak, ih]
  | false =>
    rw [if_neg (by simp)]
    clear hg
    induction opts with
    | nil =>
      have hkk : ((key, value).1 == k) = false :=
        beq_eq_false_iff_ne.mpr (fun hkk => hk hkk.symm)
      simp only [List.nil_append, List.find?_cons, hkk, List.find?_nil]
    | cons a t ih =>
      cases hak : (a.1 == k) with
      | true => simp only [List.cons_append, List.find?_cons, hak]
      | false => simp only [List.cons_append, List.find?_cons, hak, ih]

theorem OptionValue_CreateRemote (cf : ConfigFile) (r k : String)
    (h : cf.HasRemote r = true) (hk : k ≠ "") :
    (cf.CreateRemote r).OptionValue r k = cf.OptionValue r k := by
  have h' : cf.sections.any (fun s => s.1 == r) = true := by
    rw [← any_map_fst]; exact h
  unfold ConfigFile.OptionValue ConfigFile.GetSection ConfigFile.CreateRemote
    ConfigFile.SetValue
  rw [if_pos h']
  rw [show (⟨cf.sections.map (fun s => if s.1 == r then (s.1, setOption s.2 "" "") else s)⟩ :
    ConfigFile).sections = cf.sections.map
      (fun s => if s.1 == r then (s.1, setOption s.2 "" "") else s) from rfl]
  rw [find?_setValue_map]
  cases hfind : cf.sections.find? (fun s => s.1 == r) with
  | none => rfl
  | some s => simp [find?_setOption_ne s.2 "" "" k hk]

theorem HasRemote_DeleteSection (cf : ConfigFile) (r : String) :
    (cf.DeleteSection r).HasRemote r = false := by
  unfold ConfigFile.DeleteSection ConfigFile.HasRemote ConfigFile.ListRemotes
    ConfigFile.GetSectionList
  induction cf.sections with
  | nil => rfl
  | cons a t ih =>
    cases hp : (a.1 == r) with
    | true => simp only [List.filter_cons, hp, Bool.not_true, List.map_cons]; exact ih
    | false =>
      simp only [List.filter_cons, hp, Bool.not_false, if_true, List.map_cons, List.any_cons]
      simp [hp, ih]

theorem Nodup_DeleteSection (cf : ConfigFile) (r : String)
    (h : cf.ListRemotes.Nodup) : (cf.DeleteSection r).ListRemotes.Nodup :=
  h.sublist ((List.filter_sublist _).map _)

/-- C8: remote names stay unique and creation on an existing name is safe:
when `HasRemote r` already holds, `CreateRemote r` leaves the remote list
unchanged (no duplicate section, same length) and keeps every existing
option of the section (every option name other than the empty section-marker
key keeps its value, mutated in place); after `DeleteRemote r`, `HasRemote
r` is false; and both operations preserve uniqueness of the name list. -/
theorem c8_unique_names (cf : ConfigFile) (r k : String)
    (h : cf.HasRemote r = true) (hk : k ≠ "") :
    (cf.CreateRemote r).ListRemotes = cf.ListRemotes ∧
    (cf.CreateRemote r).OptionValue r k = cf.OptionValue r k ∧
    (cf.DeleteRemote r).HasRemote r = false ∧
    (cf.ListRemotes.Nodup →
      (cf.CreateRemote r).ListRemotes.Nodup ∧ (cf.DeleteRemote r).ListRemotes.Nodup) := by
  refine ⟨ListRemotes_CreateRemote cf r h, OptionValue_CreateRemote cf r k h hk,
    HasRemote_DeleteSection cf r, fun hn => ⟨?_, Nodup_DeleteSection cf r hn⟩⟩
  rw [ListRemotes_CreateRemote cf r h]
  exact hn

theorem c8_unique_names_witness :
    ((⟨[("a", [("x", "1")])]⟩ : ConfigFile).CreateRemote "a").ListRemotes
        = (⟨[("a", [("x", "1")])]⟩ : ConfigFile).ListRemotes ∧
    ((⟨[("a", [("x", "1")])]⟩ : ConfigFile).CreateRemote "a").OptionValue "a" "x"
        = (⟨[("a", [("x", "1")])]⟩ : ConfigFile).OptionValue "a" "x" ∧
    ((⟨[("a", [("x", "1")])]⟩ : ConfigFile).DeleteRemote "a").HasRemote "a" = false ∧
    ((⟨[("a", [("x", "1")])]⟩ : ConfigFile).ListRemotes.Nodup →
      ((⟨[("a", [("x", "1")])]⟩ : ConfigFile).CreateRemote "a").ListRemotes.Nodup ∧
      ((⟨[("a", [("x", "1")])]⟩ : ConfigFile).DeleteRemote "a").ListRemotes.Nodup) :=
  c8_unique_names ⟨[("a", [("x", "1")])]⟩ "a" "x" (by decide) (by decide)

/-- C9: for a name `r` with `HasRemote r` false, `GetRemote r` still returns
a section handle, but `Keys`, `GetString` and `GetConfig` through that
handle, and `CopyRemote` with `r` as source, all end in `log.Fatalf` because
the underlying section lookup fails. -/
theorem c9_missing_remote_fatal (cf : ConfigFile) (r d n : String)
    (h : cf.HasRemote r = false) :
    cf.GetRemote r = ⟨r⟩ ∧
    (cf.GetRemote r).Keys cf = .fatal ∧
    (cf.GetRemote r).GetString cf n = .fatal ∧
    (cf.GetRemote r).GetConfig cf = .fatal ∧
    cf.CopyRemote r d = .fatal := by
  have hs := GetSection_eq_none cf r h
  refine ⟨rfl, ?_, ?_, ?_, ?_⟩ <;>
    simp [SectionHandle.Keys, SectionHandle.GetString, SectionHandle.GetConfig,
      SectionHandle.getRemoteData, ConfigFile.CopyRemote, ConfigFile.GetRemote, hs]

theorem c9_missing_remote_fatal_witness :
    (⟨[("a", [("x", "1")])]⟩ : ConfigFile).GetRemote "b" = ⟨"b"⟩ ∧
    ((⟨[("a", [("x", "1")])]⟩ : ConfigFile).GetRemote "b").Keys
        ⟨[("a", [("x", "1")])]⟩ = .fatal ∧
    ((⟨[("a", [("x", "1")])]⟩ : ConfigFile).GetRemote "b").GetString
        ⟨[("a", [("x", "1")])]⟩ "n" = .fatal ∧
    ((⟨[("a", [("x", "1")])]⟩ : ConfigFile).GetRemote "b").GetConfig
        ⟨[("a", [("x", "1")])]⟩ = .fatal ∧
    (⟨[("a", [("x", "1")])]⟩ : ConfigFile).CopyRemote "b" "c" = .fatal :=
  c9_missing_remote_fatal ⟨[("a", [("x", "1")])]⟩ "b" "c" "n" (by decide)

/-- C10: renaming an existing remote to its own name removes it: the
section is copied onto itself and then deleted, so afterwards the remote no
longer exists and its options are gone. -/
theorem c10_rename_self_deletes (cf : ConfigFile) (r : String)
    (h : cf.HasRemote r = true) :
    ∃ cf2, cf.RenameRemote r r = .ok cf2 ∧ cf2.HasRemote r = false ∧
      cf2.GetSection r = none := by
  have h' : cf.sections.any (fun s => s.1 == r) = true := by
    rw [← any_map_fst]; exact h
  have hsome := sections_find?_isSome cf.sections r h'
  cases hfind : cf.sections.find? (fun s => s.1 == r) with
  | none => rw [hfind] at hsome; simp at hsome
  | some s =>
    refine ⟨(s.2.foldl (fun acc kv => acc.SetValue r kv.1 kv.2) cf).DeleteSection r,
      ?_, ?_, ?_⟩
    · unfold ConfigFile.RenameRemote ConfigFile.CopyRemote ConfigFile.GetSection
      rw [hfind]
      rfl
    · exact HasRemote_DeleteSection _ r
    · exact GetSection_eq_none _ r (HasRemote_DeleteSection _ r)

theorem c10_rename_self_deletes_witness :
    ∃ cf2, (⟨[("a", [("x", "1")])]⟩ : ConfigFile).RenameRemote "a" "a" = .ok cf2 ∧
      cf2.HasRemote "a" = false ∧ cf2.GetSection "a" = none :=
  c10_rename_self_deletes ⟨[("a", [("x", "1")])]⟩ "a" (by decide)
